import Mathlib

/-!
Shallow embedding of the reader-writer lock in `src/src/lib.rs`.

The monitor state (struct `G` in the source) holds the two wait queues and the
two active counters.  Condvar handles (`Rc<Condvar>`) are modelled as `Nat`
identifiers; a condvar's `notify_one` has no effect on the monitor state, so
`notify_others` returns, next to the unchanged lock, the plain list of handle
identifiers it signalled, in signalling order.  The `i32` counters are modelled
as `Int`.  All monitor steps in the source run under the single internal mutex,
so the semantics is a serialized step relation on lock states.
-/

inductive Preference where
  | Reader
  | Writer
deriving DecidableEq, Repr

inductive Order where
  | Fifo
  | Lifo
deriving DecidableEq, Repr

/-- Struct `G` of the source: both wait queues (condvar handles as `Nat` ids)
and both active counters. -/
structure G where
  reader_wait : List Nat
  writer_wait : List Nat
  reader_active : Int
  writer_active : Int
deriving DecidableEq, Repr

/-- The lock: protected `data`, monitor state `global`, and the construction-time
policies `pref` and `order`.  The internal `Mutex<()>` carries no data and is
represented by the serialization of the step relation itself. -/
structure RwLock (α : Type) where
  data : α
  global : G
  pref : Preference
  order : Order

/-- Constructor `RwLock::new`: empty queues, zero counters. -/
def RwLock.new (data : α) (pref : Preference) (order : Order) : RwLock α :=
  { data := data
    global := { reader_wait := [], writer_wait := [], reader_active := 0, writer_active := 0 }
    pref := pref
    order := order }

/-- `RwLock::read_wait`: must the requesting reader keep waiting? -/
def RwLock.read_wait (self : RwLock α) : Bool :=
  let writer_wait := self.global.writer_wait
  let writer_active := self.global.writer_active
  match self.pref with
  | Preference.Reader =>
      if writer_active > 0 then true else false
  | Preference.Writer =>
      if writer_active > 0 ∨ writer_wait.length > 0 then true else false

/-- `RwLock::write_wait`: must the requesting writer keep waiting? -/
def RwLock.write_wait (self : RwLock α) : Bool :=
  let writer_wait := self.global.writer_wait
  let writer_active := self.global.writer_active
  let reader_wait := self.global.reader_wait
  let reader_active := self.global.reader_active
  match self.pref with
  | Preference.Reader =>
      if writer_active > 0 ∨ reader_wait.length > 0 ∨ reader_active > 0 then true else false
  | Preference.Writer =>
      if writer_active > 0 ∨ reader_active > 0 then true else false

/-- Registration phase of `RwLock::read`: push a fresh condvar handle `h`
onto `reader_wait` (done under the mutex before the wait loop). -/
def RwLock.read_enqueue (self : RwLock α) (h : Nat) : RwLock α :=
  { self with global := { self.global with reader_wait := self.global.reader_wait ++ [h] } }

/-- Admission phase of `RwLock::read`, reached once `read_wait` is false:
pop `reader_wait` at position 0 (`Fifo`, `Vec::remove(0)`) or at the tail
(`Lifo`, `Vec::pop`), then increment `reader_active`. -/
def RwLock.read_enter (self : RwLock α) : RwLock α :=
  let g := self.global
  { self with global :=
      { g with
        reader_wait :=
          match self.order with
          | Order.Fifo => g.reader_wait.tail
          | Order.Lifo => g.reader_wait.dropLast
        reader_active := g.reader_active + 1 } }

/-- Registration phase of `RwLock::write`: push a fresh condvar handle `h`
onto `writer_wait`. -/
def RwLock.write_enqueue (self : RwLock α) (h : Nat) : RwLock α :=
  { self with global := { self.global with writer_wait := self.global.writer_wait ++ [h] } }

/-- Admission phase of `RwLock::write`, reached once `write_wait` is false:
pop `writer_wait` per `order`, then increment `writer_active`. -/
def RwLock.write_enter (self : RwLock α) : RwLock α :=
  let g := self.global
  { self with global :=
      { g with
        writer_wait :=
          match self.order with
          | Order.Fifo => g.writer_wait.tail
          | Order.Lifo => g.writer_wait.dropLast
        writer_active := g.writer_active + 1 } }

/-- `RwLock::read` as it returns after admission: always `Ok` of a read guard
(the guard just borrows the lock, so we return the updated lock). -/
def RwLock.read (self : RwLock α) : Except Unit (RwLock α) :=
  Except.ok self.read_enter

/-- `RwLock::write` as it returns after admission: always `Ok` of a write guard. -/
def RwLock.write (self : RwLock α) : Except Unit (RwLock α) :=
  Except.ok self.write_enter

/-- `RwLock::notify_others`: signal waiters per preference and order.  Signals
are `notify_one` calls on condvar handles, which do not touch the monitor
state; the result is the unchanged lock paired with the list of signalled
handle ids in the order the source's loops and index expressions emit them. -/
def RwLock.notify_others (self : RwLock α) : RwLock α × List Nat :=
  let reader_wait := self.global.reader_wait
  let writer_wait := self.global.writer_wait
  let signals : List Nat :=
    match self.pref with
    | Preference.Reader =>
        match self.order with
        | Order.Fifo =>
            if reader_wait.length > 0 then
              (List.range reader_wait.length).map (fun i => reader_wait.getD i 0)
            else if writer_wait.length > 0 then
              [writer_wait.getD 0 0]
            else []
        | Order.Lifo =>
            if reader_wait.length > 0 then
              ((List.range reader_wait.length).reverse).map (fun i => reader_wait.getD i 0)
            else if writer_wait.length > 0 then
              [writer_wait.getD (writer_wait.length - 1) 0]
            else []
    | Preference.Writer =>
        match self.order with
        | Order.Fifo =>
            if writer_wait.length > 0 then
              [writer_wait.getD 0 0]
            else if reader_wait.length > 0 then
              (List.range reader_wait.length).map (fun i => reader_wait.getD i 0)
            else []
        | Order.Lifo =>
            if writer_wait.length > 0 then
              [writer_wait.getD (writer_wait.length - 1) 0]
            else if reader_wait.length > 0 then
              ((List.range reader_wait.length).reverse).map (fun i => reader_wait.getD i 0)
            else []
  (self, signals)

/-- Counter update of `Drop for RwLockReadGuard`: decrement `reader_active`
only when it is positive. -/
def RwLock.read_release (self : RwLock α) : RwLock α :=
  if self.global.reader_active > 0 then
    { self with global := { self.global with reader_active := self.global.reader_active - 1 } }
  else self

/-- `Drop for RwLockReadGuard`: conditional decrement, then `notify_others`. -/
def RwLock.read_guard_drop (self : RwLock α) : RwLock α × List Nat :=
  self.read_release.notify_others

/-- Counter update of `Drop for RwLockWriteGuard`: decrement `writer_active`
only when it is positive. -/
def RwLock.write_release (self : RwLock α) : RwLock α :=
  if self.global.writer_active > 0 then
    { self with global := { self.global with writer_active := self.global.writer_active - 1 } }
  else self

/-- `Drop for RwLockWriteGuard`: conditional decrement, then `notify_others`. -/
def RwLock.write_guard_drop (self : RwLock α) : RwLock α × List Nat :=
  self.write_release.notify_others

/-- `Deref` of both guards: a shared reference to the protected value. -/
def RwLock.guard_deref (self : RwLock α) : α :=
  self.data

/-- Writing the protected value through `DerefMut` of a write guard. -/
def RwLock.guard_store (self : RwLock α) (v : α) : RwLock α :=
  { self with data := v }

/-- Serialized lock steps: handle registration, admission (which requires the
admission predicate to be false and the thread's own handle to be queued),
and the two guard drops.  Each corresponds to one critical section of the
internal mutex in the source. -/
inductive LockStep : RwLock α → RwLock α → Prop where
  | enqueue_read (s : RwLock α) (h : Nat) : LockStep s (s.read_enqueue h)
  | enqueue_write (s : RwLock α) (h : Nat) : LockStep s (s.write_enqueue h)
  | admit_read (s : RwLock α) (hq : s.global.reader_wait ≠ [])
      (hw : s.read_wait = false) : LockStep s s.read_enter
  | admit_write (s : RwLock α) (hq : s.global.writer_wait ≠ [])
      (hw : s.write_wait = false) : LockStep s s.write_enter
  | drop_read (s : RwLock α) : LockStep s s.read_guard_drop.1
  | drop_write (s : RwLock α) : LockStep s s.write_guard_drop.1

/-- States reachable from a freshly constructed lock by serialized lock steps. -/
inductive Reachable : RwLock α → Prop where
  | init (d : α) (p : Preference) (o : Order) : Reachable (RwLock.new d p o)
  | step {s t : RwLock α} : Reachable s → LockStep s t → Reachable t

/-- Lock operations considered by the frame claims: every monitor critical
section except a store through a write guard. -/
inductive LockOp where
  | enqueueRead (h : Nat)
  | enqueueWrite (h : Nat)
  | admitRead
  | admitWrite
  | dropRead
  | dropWrite
  | wake
deriving DecidableEq, Repr

/-- Run one lock operation on the state. -/
def applyOp (op : LockOp) (s : RwLock α) : RwLock α :=
  match op with
  | LockOp.enqueueRead h => s.read_enqueue h
  | LockOp.enqueueWrite h => s.write_enqueue h
  | LockOp.admitRead => s.read_enter
  | LockOp.admitWrite => s.write_enter
  | LockOp.dropRead => s.read_guard_drop.1
  | LockOp.dropWrite => s.write_guard_drop.1
  | LockOp.wake => s.notify_others.1

/-- Run a sequence of lock operations on the state. -/
def applyOps (ops : List LockOp) (s : RwLock α) : RwLock α :=
  match ops with
  | [] => s
  | op :: rest => applyOps rest (applyOp op s)

/-- State invariant maintained by all serialized lock steps. -/
def LockInv (s : RwLock α) : Prop :=
  0 ≤ s.global.reader_active ∧ 0 ≤ s.global.writer_active ∧
  s.global.writer_active ≤ 1 ∧
  (s.global.reader_active = 0 ∨ s.global.writer_active = 0)

/-- Abstract lock states of the spec's state-machine summary. -/
inductive AbsState where
  | Idle
  | Shared (n : Int)
  | Exclusive
deriving DecidableEq, Repr

/-- Abstraction of a lock state to the spec's state machine. -/
def absOf (s : RwLock α) : AbsState :=
  if 0 < s.global.writer_active then AbsState.Exclusive
  else if 0 < s.global.reader_active then AbsState.Shared s.global.reader_active
  else AbsState.Idle

/-- Exactly the transitions listed in the spec's state-machine summary:
Idle to Shared(1), Shared(n) to Shared(n+1), Shared(1) to Idle, Idle to
Exclusive, Exclusive to Idle. -/
def specTrans : AbsState → AbsState → Bool
  | AbsState.Idle, AbsState.Shared n => n == 1
  | AbsState.Shared n, AbsState.Shared m => m == n + 1
  | AbsState.Shared n, AbsState.Idle => n == 1
  | AbsState.Idle, AbsState.Exclusive => true
  | AbsState.Exclusive, AbsState.Idle => true
  | _, _ => false

/-- The listed transitions plus the one the code also takes: Shared(n) to
Shared(n-1) on a non-last read release. -/
def amendedTrans (a b : AbsState) : Bool :=
  specTrans a b ||
    (match a, b with
     | AbsState.Shared n, AbsState.Shared m => (m == n - 1) && decide (1 ≤ m)
     | _, _ => false)

/-- Reachable state with two admitted readers, used to exhibit the
Shared(2) to Shared(1) transition. -/
def twoReaders : RwLock Int :=
  ((((RwLock.new 0 Preference.Reader Order.Fifo).read_enqueue 1).read_enter).read_enqueue
      2).read_enter

lemma range_map_getD (l : List Nat) :
    (List.range l.length).map (fun i => l[i]?.getD 0) = l := by
  induction l with
  | nil => simp
  | cons a t ih =>
    simp only [List.length_cons, List.range_succ_eq_map, List.map_cons, List.map_map,
      Function.comp_def, Nat.succ_eq_add_one, List.getElem?_cons_zero, List.getElem?_cons_succ,
      Option.getD_some]
    exact congrArg (a :: ·) ih

/-- C2: `read_wait` is true iff, under `Reader` preference, a writer is active;
under `Writer` preference, a writer is active or a writer is waiting. -/
theorem read_wait_iff (s : RwLock α) :
    s.read_wait = true ↔
      (match s.pref with
       | Preference.Reader => 0 < s.global.writer_active
       | Preference.Writer => 0 < s.global.writer_active ∨ s.global.writer_wait ≠ []) := by
  cases hp : s.pref <;>
    simp [RwLock.read_wait, hp, List.length_pos]

/-- C3: `write_wait` is true iff, under `Reader` preference, a writer is active
or a reader is waiting or a reader is active; under `Writer` preference, a
writer is active or a reader is active. -/
theorem write_wait_iff (s : RwLock α) :
    s.write_wait = true ↔
      (match s.pref with
       | Preference.Reader =>
           0 < s.global.writer_active ∨ s.global.reader_wait ≠ [] ∨ 0 < s.global.reader_active
       | Preference.Writer =>
           0 < s.global.writer_active ∨ 0 < s.global.reader_active) := by
  cases hp : s.pref <;>
    simp [RwLock.write_wait, hp, List.length_pos]

/-- C10: `notify_others` leaves the whole monitor state (both queues, both
counters, and in fact the entire lock) unchanged; it only emits signals. -/
theorem notify_others_frame (s : RwLock α) :
    s.notify_others.1 = s ∧
    s.notify_others.1.global.reader_wait = s.global.reader_wait ∧
    s.notify_others.1.global.writer_wait = s.global.writer_wait ∧
    s.notify_others.1.global.reader_active = s.global.reader_active ∧
    s.notify_others.1.global.writer_active = s.global.writer_active :=
  ⟨rfl, rfl, rfl, rfl, rfl⟩

/-- C9: once admitted, `read` and `write` return `Ok`; the `Err` variant of the
`Result` type is never produced. -/
theorem acquire_always_ok (s : RwLock α) :
    (s.read_wait = false → ∃ t, s.read = Except.ok t) ∧
    (s.write_wait = false → ∃ t, s.write = Except.ok t) :=
  ⟨fun _ => ⟨s.read_enter, rfl⟩, fun _ => ⟨s.write_enter, rfl⟩⟩

/-- Witness for `acquire_always_ok` at a freshly constructed lock. -/
theorem acquire_always_ok_witness :
    (RwLock.new (0 : Int) Preference.Reader Order.Fifo).read_wait = false ∧
    (∃ t, (RwLock.new (0 : Int) Preference.Reader Order.Fifo).read = Except.ok t) ∧
    (∃ t, (RwLock.new (0 : Int) Preference.Reader Order.Fifo).write = Except.ok t) :=
  ⟨by decide,
   (acquire_always_ok (RwLock.new (0 : Int) Preference.Reader Order.Fifo)).1 (by decide),
   (acquire_always_ok (RwLock.new (0 : Int) Preference.Reader Order.Fifo)).2 (by decide)⟩

lemma applyOp_data (op : LockOp) (s : RwLock α) : (applyOp op s).data = s.data := by
  cases op <;>
    simp [applyOp, RwLock.read_enqueue, RwLock.write_enqueue, RwLock.read_enter,
      RwLock.write_enter, RwLock.read_guard_drop, RwLock.write_guard_drop,
      RwLock.read_release, RwLock.write_release, RwLock.notify_others] <;>
    split <;> rfl

lemma applyOps_data (ops : List LockOp) (s : RwLock α) : (applyOps ops s).data = s.data := by
  induction ops generalizing s with
  | nil => rfl
  | cons op rest ih => rw [applyOps, ih, applyOp_data]

/-- C8: the lock operations never modify the protected value: after a store
of `v` through a write guard, every guard dereference following any sequence
of acquisition, release and wake operations still yields `v`. -/
theorem data_round_trip (s : RwLock α) (v : α) (ops : List LockOp) :
    (applyOps ops (s.guard_store v)).guard_deref = v ∧
    (applyOps ops s).data = s.data := by
  constructor
  · rw [RwLock.guard_deref, applyOps_data]; rfl
  · exact applyOps_data ops s

lemma read_wait_false_writer {s : RwLock α} (hw : s.read_wait = false) :
    s.global.writer_active ≤ 0 := by
  cases hp : s.pref <;> simp [RwLock.read_wait, hp] at hw
  · exact hw
  · exact hw.1

lemma write_wait_false_active {s : RwLock α} (hw : s.write_wait = false) :
    s.global.writer_active ≤ 0 ∧ s.global.reader_active ≤ 0 := by
  cases hp : s.pref <;> simp [RwLock.write_wait, hp] at hw
  · exact ⟨hw.1, hw.2.2⟩
  · exact hw

lemma inv_new (d : α) (p : Preference) (o : Order) : LockInv (RwLock.new d p o) := by
  simp [LockInv, RwLock.new]

lemma inv_step {s t : RwLock α} (hs : LockInv s) (st : LockStep s t) : LockInv t := by
  obtain ⟨h1, h2, h3, h4⟩ := hs
  cases st with
  | enqueue_read h =>
    exact ⟨h1, h2, h3, h4⟩
  | enqueue_write h =>
    exact ⟨h1, h2, h3, h4⟩
  | admit_read hq hw =>
    have hwa := read_wait_false_writer hw
    simp only [LockInv, RwLock.read_enter]
    refine ⟨?_, ?_, ?_, ?_⟩ <;> omega
  | admit_write hq hw =>
    obtain ⟨hwa1, hwa2⟩ := write_wait_false_active hw
    simp only [LockInv, RwLock.write_enter]
    refine ⟨?_, ?_, ?_, ?_⟩ <;> omega
  | drop_read =>
    simp only [RwLock.read_guard_drop, RwLock.notify_others, RwLock.read_release, LockInv]
    split
    · refine ⟨?_, ?_, ?_, ?_⟩ <;> simp <;> omega
    · exact ⟨h1, h2, h3, h4⟩
  | drop_write =>
    simp only [RwLock.write_guard_drop, RwLock.notify_others, RwLock.write_release, LockInv]
    split
    · refine ⟨?_, ?_, ?_, ?_⟩ <;> simp <;> omega
    · exact ⟨h1, h2, h3, h4⟩

lemma reachable_inv {s : RwLock α} (h : Reachable s) : LockInv s := by
  induction h with
  | init d p o => exact inv_new d p o
  | step _ st ih => exact inv_step ih st

/-- C1: in every reachable state, `writer_active` is at most 1 and mutual
exclusion holds between readers and the writer. -/
theorem mutual_exclusion (s : RwLock α) (h : Reachable s) :
    s.global.writer_active ≤ 1 ∧
    (0 < s.global.writer_active → s.global.reader_active = 0) ∧
    (0 < s.global.reader_active → s.global.writer_active = 0) := by
  obtain ⟨h1, h2, h3, h4⟩ := reachable_inv h
  exact ⟨h3, by omega, by omega⟩

/-- Witness for `mutual_exclusion` at a freshly constructed lock. -/
theorem mutual_exclusion_witness :
    (RwLock.new (0 : Int) Preference.Writer Order.Lifo).global.writer_active ≤ 1 ∧
    (0 < (RwLock.new (0 : Int) Preference.Writer Order.Lifo).global.writer_active →
      (RwLock.new (0 : Int) Preference.Writer Order.Lifo).global.reader_active = 0) ∧
    (0 < (RwLock.new (0 : Int) Preference.Writer Order.Lifo).global.reader_active →
      (RwLock.new (0 : Int) Preference.Writer Order.Lifo).global.writer_active = 0) :=
  mutual_exclusion _ (Reachable.init 0 Preference.Writer Order.Lifo)

/-- C4: wake-selection signals, under `Reader` preference, every waiting
reader (ascending for `Fifo`, descending for `Lifo`) when readers wait, else
exactly one writer (head for `Fifo`, tail for `Lifo`); under `Writer`
preference, exactly one writer when writers wait, else every waiting reader;
and the selection depends only on the preference, the order and the two
queues, not on which guard triggered it. -/
theorem notify_others_signals (s : RwLock α) :
    (s.pref = Preference.Reader → s.global.reader_wait ≠ [] →
        s.notify_others.2 =
          match s.order with
          | Order.Fifo => s.global.reader_wait
          | Order.Lifo => s.global.reader_wait.reverse) ∧
    (s.pref = Preference.Reader → s.global.reader_wait = [] →
        ∀ hw : s.global.writer_wait ≠ [],
        s.notify_others.2 =
          [match s.order with
           | Order.Fifo => s.global.writer_wait.head hw
           | Order.Lifo => s.global.writer_wait.getLast hw]) ∧
    (s.pref = Preference.Writer → ∀ hw : s.global.writer_wait ≠ [],
        s.notify_others.2 =
          [match s.order with
           | Order.Fifo => s.global.writer_wait.head hw
           | Order.Lifo => s.global.writer_wait.getLast hw]) ∧
    (s.pref = Preference.Writer → s.global.writer_wait = [] →
        s.global.reader_wait ≠ [] →
        s.notify_others.2 =
          match s.order with
          | Order.Fifo => s.global.reader_wait
          | Order.Lifo => s.global.reader_wait.reverse) ∧
    (∀ t : RwLock α, s.pref = t.pref → s.order = t.order →
        s.global.reader_wait = t.global.reader_wait →
        s.global.writer_wait = t.global.writer_wait →
        s.notify_others.2 = t.notify_others.2) := by
  refine ⟨?_, ?_, ?_, ?_, ?_⟩
  · intro hp hr
    cases ho : s.order <;>
      simp [RwLock.notify_others, hp, ho, List.length_pos, hr, range_map_getD,
        List.map_reverse]
  · intro hp hre hw
    cases ho : s.order <;>
      simp [RwLock.notify_others, hp, ho, hre, List.length_pos, hw]
    · exact (List.head_eq_getElem_zero hw).symm
    · exact (List.getLast_eq_getElem _ _).symm
  · intro hp hw
    cases ho : s.order <;>
      simp [RwLock.notify_others, hp, ho, List.length_pos, hw]
    · exact (List.head_eq_getElem_zero hw).symm
    · exact (List.getLast_eq_getElem _ _).symm
  · intro hp hwe hr
    cases ho : s.order <;>
      simp [RwLock.notify_others, hp, ho, hwe, List.length_pos, hr, range_map_getD,
        List.map_reverse]
  · intro t h1 h2 h3 h4
    simp only [RwLock.notify_others]
    rw [h1, h2, h3, h4]

/-- Witness for `notify_others_signals`: two queued readers under
reader-preference with Fifo order are both signalled, in queue order. -/
theorem notify_others_signals_witness :
    (((RwLock.new (0 : Int) Preference.Reader Order.Fifo).read_enqueue 5).read_enqueue
        7).notify_others.2 = [5, 7] := by
  have h :=
    (notify_others_signals
        (((RwLock.new (0 : Int) Preference.Reader Order.Fifo).read_enqueue 5).read_enqueue
          7)).1 rfl (by decide)
  rw [h]
  decide

/-- C5: a requesting thread is appended at the tail of its class's queue, and
admission removes exactly one entry from the same queue — the head under
`Fifo`, the tail under `Lifo` — as a function of the configured order alone. -/
theorem queue_discipline (s : RwLock α) :
    (∀ h : Nat,
        (s.read_enqueue h).global.reader_wait = s.global.reader_wait ++ [h] ∧
        (s.write_enqueue h).global.writer_wait = s.global.writer_wait ++ [h]) ∧
    (s.order = Order.Fifo →
        s.read_enter.global.reader_wait = s.global.reader_wait.tail ∧
        s.write_enter.global.writer_wait = s.global.writer_wait.tail) ∧
    (s.order = Order.Lifo →
        s.read_enter.global.reader_wait = s.global.reader_wait.dropLast ∧
        s.write_enter.global.writer_wait = s.global.writer_wait.dropLast) ∧
    (s.global.reader_wait ≠ [] →
        s.read_enter.global.reader_wait.length + 1 = s.global.reader_wait.length) ∧
    (s.global.writer_wait ≠ [] →
        s.write_enter.global.writer_wait.length + 1 = s.global.writer_wait.length) := by
  refine ⟨fun h => ⟨rfl, rfl⟩, ?_, ?_, ?_, ?_⟩
  · intro ho
    exact ⟨by simp [RwLock.read_enter, ho], by simp [RwLock.write_enter, ho]⟩
  · intro ho
    exact ⟨by simp [RwLock.read_enter, ho], by simp [RwLock.write_enter, ho]⟩
  · intro hne
    have hl : 0 < s.global.reader_wait.length := List.length_pos.mpr hne
    cases ho : s.order <;>
      simp [RwLock.read_enter, ho, List.length_tail, List.length_dropLast] <;> omega
  · intro hne
    have hl : 0 < s.global.writer_wait.length := List.length_pos.mpr hne
    cases ho : s.order <;>
      simp [RwLock.write_enter, ho, List.length_tail, List.length_dropLast] <;> omega

/-- Witness for `queue_discipline`: admitting the only queued reader under
Fifo shrinks the queue from one entry to zero. -/
theorem queue_discipline_witness :
    ((RwLock.new (0 : Int) Preference.Reader Order.Fifo).read_enqueue
        3).read_enter.global.reader_wait.length + 1 =
      ((RwLock.new (0 : Int) Preference.Reader Order.Fifo).read_enqueue
        3).global.reader_wait.length :=
  (queue_discipline _).2.2.2.1 (by decide)

lemma read_drop_nonneg (s : RwLock α) (hra : 0 ≤ s.global.reader_active)
    (hwa : 0 ≤ s.global.writer_active) :
    0 ≤ s.read_guard_drop.1.global.reader_active ∧
    0 ≤ s.read_guard_drop.1.global.writer_active := by
  simp only [RwLock.read_guard_drop, RwLock.notify_others, RwLock.read_release]
  split <;> refine ⟨?_, ?_⟩ <;> (try simp) <;> omega

lemma write_drop_nonneg (s : RwLock α) (hra : 0 ≤ s.global.reader_active)
    (hwa : 0 ≤ s.global.writer_active) :
    0 ≤ s.write_guard_drop.1.global.reader_active ∧
    0 ≤ s.write_guard_drop.1.global.writer_active := by
  simp only [RwLock.write_guard_drop, RwLock.notify_others, RwLock.write_release]
  split <;> refine ⟨?_, ?_⟩ <;> (try simp) <;> omega

lemma drops_nonneg (ops : List LockOp) :
    ∀ s : RwLock α, (∀ op ∈ ops, op = LockOp.dropRead ∨ op = LockOp.dropWrite) →
      0 ≤ s.global.reader_active → 0 ≤ s.global.writer_active →
      0 ≤ (applyOps ops s).global.reader_active ∧
      0 ≤ (applyOps ops s).global.writer_active := by
  induction ops with
  | nil => exact fun s _ hra hwa => ⟨hra, hwa⟩
  | cons op rest ih =>
    intro s hops hra hwa
    have hrest : ∀ o ∈ rest, o = LockOp.dropRead ∨ o = LockOp.dropWrite :=
      fun o ho => hops o (by simp [ho])
    rcases hops op (by simp) with h | h <;> subst h <;> simp only [applyOps, applyOp]
    · exact ih _ hrest (read_drop_nonneg s hra hwa).1 (read_drop_nonneg s hra hwa).2
    · exact ih _ hrest (write_drop_nonneg s hra hwa).1 (write_drop_nonneg s hra hwa).2

/-- C6: dropping a read (resp. write) guard decrements `reader_active`
(resp. `writer_active`) only when positive, leaves the other counter alone,
then runs wake-selection; hence the counters never go negative under any
sequence of guard drops. -/
theorem guard_drop_spec (s : RwLock α) :
    s.read_guard_drop.1.global.reader_active =
        (if 0 < s.global.reader_active then s.global.reader_active - 1
         else s.global.reader_active) ∧
    s.read_guard_drop.1.global.writer_active = s.global.writer_active ∧
    s.read_guard_drop.2 = s.read_release.notify_others.2 ∧
    s.write_guard_drop.1.global.writer_active =
        (if 0 < s.global.writer_active then s.global.writer_active - 1
         else s.global.writer_active) ∧
    s.write_guard_drop.1.global.reader_active = s.global.reader_active ∧
    s.write_guard_drop.2 = s.write_release.notify_others.2 ∧
    (0 ≤ s.global.reader_active → 0 ≤ s.global.writer_active →
      ∀ ops : List LockOp, (∀ op ∈ ops, op = LockOp.dropRead ∨ op = LockOp.dropWrite) →
        0 ≤ (applyOps ops s).global.reader_active ∧
        0 ≤ (applyOps ops s).global.writer_active) := by
  refine ⟨?_, ?_, rfl, ?_, ?_, rfl, ?_⟩
  · simp only [RwLock.read_guard_drop, RwLock.notify_others, RwLock.read_release]
    split <;> simp [*]
  · simp only [RwLock.read_guard_drop, RwLock.notify_others, RwLock.read_release]
    split <;> rfl
  · simp only [RwLock.write_guard_drop, RwLock.notify_others, RwLock.write_release]
    split <;> simp [*]
  · simp only [RwLock.write_guard_drop, RwLock.notify_others, RwLock.write_release]
    split <;> rfl
  · exact fun hra hwa ops hops => drops_nonneg ops s hops hra hwa

/-- Witness for `guard_drop_spec`: counters stay non-negative after a read
drop followed by a write drop on a lock holding one active reader. -/
theorem guard_drop_spec_witness :
    0 ≤ (applyOps [LockOp.dropRead, LockOp.dropWrite]
          (((RwLock.new (0 : Int) Preference.Reader Order.Fifo).read_enqueue
            9).read_enter)).global.reader_active ∧
    0 ≤ (applyOps [LockOp.dropRead, LockOp.dropWrite]
          (((RwLock.new (0 : Int) Preference.Reader Order.Fifo).read_enqueue
            9).read_enter)).global.writer_active :=
  (guard_drop_spec _).2.2.2.2.2.2 (by decide) (by decide)
    [LockOp.dropRead, LockOp.dropWrite] (by decide)

lemma abs_step {s t : RwLock α} (hs : LockInv s) (st : LockStep s t) :
    absOf t = absOf s ∨ amendedTrans (absOf s) (absOf t) = true := by
  obtain ⟨h1, h2, h3, h4⟩ := hs
  cases st with
  | enqueue_read h => exact Or.inl rfl
  | enqueue_write h => exact Or.inl rfl
  | admit_read hq hw =>
    have hwa := read_wait_false_writer hw
    have hwa0 : s.global.writer_active = 0 := by omega
    right
    by_cases hra : 0 < s.global.reader_active
    · have h01 : 0 < s.global.reader_active + 1 := by omega
      simp [absOf, RwLock.read_enter, hwa0, hra, h01, amendedTrans, specTrans]
    · have hra0 : s.global.reader_active = 0 := by omega
      simp [absOf, RwLock.read_enter, hwa0, hra0, amendedTrans, specTrans]
  | admit_write hq hw =>
    obtain ⟨hw1, hw2⟩ := write_wait_false_active hw
    have hwa0 : s.global.writer_active = 0 := by omega
    have hra0 : s.global.reader_active = 0 := by omega
    right
    simp [absOf, RwLock.write_enter, hwa0, hra0, amendedTrans, specTrans]
  | drop_read =>
    by_cases hra : 0 < s.global.reader_active
    · have hwa0 : s.global.writer_active = 0 := by omega
      right
      simp only [RwLock.read_guard_drop, RwLock.notify_others, RwLock.read_release]
      rw [if_pos hra]
      by_cases hone : s.global.reader_active = 1
      · simp [absOf, hwa0, hra, hone, amendedTrans, specTrans]
      · have htwo : 0 < s.global.reader_active - 1 := by omega
        simp [absOf, hwa0, hra, htwo, amendedTrans, specTrans]
        omega
    · left
      simp only [RwLock.read_guard_drop, RwLock.notify_others, RwLock.read_release]
      rw [if_neg hra]
  | drop_write =>
    by_cases hwa : 0 < s.global.writer_active
    · have hra0 : s.global.reader_active = 0 := by omega
      have hwa1 : s.global.writer_active = 1 := by omega
      right
      simp only [RwLock.write_guard_drop, RwLock.notify_others, RwLock.write_release]
      rw [if_pos hwa]
      simp [absOf, hra0, hwa1, amendedTrans, specTrans]
    · left
      simp only [RwLock.write_guard_drop, RwLock.notify_others, RwLock.write_release]
      rw [if_neg hwa]

/-- Counterexample to C7 as stated: from the reachable state with two active
readers, dropping one read guard takes the abstract transition
Shared(2) to Shared(1), which is none of the five transitions listed. -/
theorem shared_decrement_counterexample :
    Reachable twoReaders ∧
    LockStep twoReaders twoReaders.read_guard_drop.1 ∧
    absOf twoReaders = AbsState.Shared 2 ∧
    absOf twoReaders.read_guard_drop.1 = AbsState.Shared 1 ∧
    specTrans (absOf twoReaders) (absOf twoReaders.read_guard_drop.1) = false ∧
    absOf twoReaders.read_guard_drop.1 ≠ absOf twoReaders := by
  refine ⟨?_, LockStep.drop_read twoReaders, by decide, by decide, by decide, by decide⟩
  have h0 : Reachable (RwLock.new (0 : Int) Preference.Reader Order.Fifo) :=
    Reachable.init 0 Preference.Reader Order.Fifo
  have h1 := Reachable.step h0 (LockStep.enqueue_read _ 1)
  have h2 := Reachable.step h1 (LockStep.admit_read _ (by decide) (by decide))
  have h3 := Reachable.step h2 (LockStep.enqueue_read _ 2)
  exact Reachable.step h3 (LockStep.admit_read _ (by decide) (by decide))

/-- C7 (amended): an admitted write leaves `writer_active = 1` and
`reader_active = 0`; an admitted read increments `reader_active` by exactly 1;
and every serialized step from a reachable state either leaves the abstract
state unchanged or takes one of the listed transitions extended with
Shared(n) to Shared(n-1) on a non-last read release. -/
theorem admitted_transitions (α : Type) :
    (∀ s : RwLock α, Reachable s → s.write_wait = false →
        s.write_enter.global.writer_active = 1 ∧
        s.write_enter.global.reader_active = 0) ∧
    (∀ s : RwLock α, s.read_enter.global.reader_active = s.global.reader_active + 1) ∧
    (∀ s t : RwLock α, Reachable s → LockStep s t →
        absOf t = absOf s ∨ amendedTrans (absOf s) (absOf t) = true) := by
  refine ⟨?_, ?_, ?_⟩
  · intro s hr hw
    obtain ⟨h1, h2, h3, h4⟩ := reachable_inv hr
    obtain ⟨hw1, hw2⟩ := write_wait_false_active hw
    constructor <;> simp [RwLock.write_enter] <;> omega
  · intro s
    rfl
  · intro s t hr st
    exact abs_step (reachable_inv hr) st

/-- Witness for `admitted_transitions`: the first admitted write on a fresh
lock yields exactly one active writer and no active readers. -/
theorem admitted_transitions_witness :
    ((RwLock.new (0 : Int) Preference.Writer Order.Fifo).write_enqueue
        4).write_enter.global.writer_active = 1 ∧
    ((RwLock.new (0 : Int) Preference.Writer Order.Fifo).write_enqueue
        4).write_enter.global.reader_active = 0 :=
  (admitted_transitions Int).1 _
    (Reachable.step (Reachable.init 0 Preference.Writer Order.Fifo)
      (LockStep.enqueue_write _ 4))
    (by decide)
